import Mathlib

/-!
# Verification of the Blackjack simulator core

Shallow embedding of the Blackjack simulator (game engine, deck/shoe,
counter, strategy table, simulator entry points) and proofs about the
properties stated in its specification.

Conventions of the embedding:
* JS numbers holding integers are modelled as `Nat`/`Int`; currency-like
  quantities (winnings, penetration percentages, true counts) as `Rat`.
* JS arrays are `List`s; `Deck.cards` keeps the JS orientation, so dealing
  pops from the end of the list (`getLast`).
* `Math.random`-driven choices (the Fisher-Yates shuffle) are supplied as an
  explicit stream of naturals carried by the deck (`rng`); one entry is
  consumed per swap, `j = r % (i+1)` standing for `floor(random()*(i+1))`.
* Unbounded JS `while` loops are given an explicit fuel argument; out of
  fuel the loop returns its current state.  All theorems about loop runs
  quantify over (or instantiate) the fuel.
-/

namespace Blackjack

/-- The thirteen card ranks generated by the deck builder
(`'A','2',...,'10','J','Q','K'`). -/
inductive Rank where
  | A | r2 | r3 | r4 | r5 | r6 | r7 | r8 | r9 | r10 | J | Q | K
  deriving DecidableEq, Repr, Fintype

/-- A card as built by `Deck.shuffle`: rank, suit and blackjack value. -/
structure Card where
  rank : Rank
  suit : String
  value : Nat
  deriving DecidableEq, Repr

instance : Inhabited Card := ⟨⟨Rank.A, "♠", 11⟩⟩

/-- `Deck.getCardValue`: A is 11, faces are 10, otherwise the numeric rank. -/
def getCardValue : Rank → Nat
  | .A => 11
  | .J | .Q | .K => 10
  | .r2 => 2 | .r3 => 3 | .r4 => 4 | .r5 => 5 | .r6 => 6
  | .r7 => 7 | .r8 => 8 | .r9 => 9 | .r10 => 10

/-- A card is well formed when its stored value is the one the deck builder
assigns to its rank (true of every card the engine ever creates). -/
def Card.wf (c : Card) : Prop := c.value = getCardValue c.rank

instance (c : Card) : Decidable c.wf := by unfold Card.wf; infer_instance

/-- Result of `calculateHandValue`: the total and the soft flag. -/
structure HandValue where
  value : Nat
  isSoft : Bool
  deriving DecidableEq, Repr

/-- First loop of `calculateHandValue`: every Ace counted as 11, plus the
number of Aces seen. -/
def rawSum (cards : List Card) : Nat × Nat :=
  cards.foldl
    (fun (acc : Nat × Nat) card =>
      if card.rank = Rank.A then (acc.1 + 11, acc.2 + 1) else (acc.1 + card.value, acc.2))
    (0, 0)

/-- The `while (value > 21 && aces > 0)` adjustment loop: convert one Ace
from 11 to 1 per iteration. Recursion is on the ace counter, exactly the
loop variant of the source. -/
def adjustAces : Nat → Nat → Nat × Nat
  | v, 0 => (v, 0)
  | v, a + 1 => if 21 < v then adjustAces (v - 10) a else (v, a + 1)

/-- `BlackjackGame.calculateHandValue`. -/
def calculateHandValue (cards : List Card) : HandValue :=
  let s := rawSum cards
  let t := adjustAces s.1 s.2
  { value := t.1, isSoft := decide (0 < t.2) && decide (t.1 ≤ 21) }

/-- `BlackjackGame.isBlackjack`. -/
def isBlackjack (cards : List Card) : Bool :=
  cards.length == 2 && (calculateHandValue cards).value == 21

/-- `BlackjackGame.canSplit`. -/
def canSplitCards (cards : List Card) : Bool :=
  cards.length == 2 &&
    ((cards.getD 0 default).value == (cards.getD 1 default).value)

/-- `BlackjackGame.canDouble`. -/
def canDoubleCards (cards : List Card) : Bool := cards.length == 2

/-- `BlackjackGame.isBust`. -/
def isBust (cards : List Card) : Bool := 21 < (calculateHandValue cards).value

/-! ### Facts about the ace adjustment loop -/

lemma adjustAces_fst_ge (v a : Nat) : v - 10 * a ≤ (adjustAces v a).1 := by
  induction a generalizing v with
  | zero => simp [adjustAces]
  | succ a ih =>
    simp only [adjustAces]
    split
    · exact le_trans (by omega) (ih (v - 10))
    · omega

lemma adjustAces_snd_zero (v a : Nat) (h : (adjustAces v a).2 = 0) :
    (adjustAces v a).1 = v - 10 * a := by
  induction a generalizing v with
  | zero => simp [adjustAces]
  | succ a ih =>
    by_cases hv : 21 < v
    · simp only [adjustAces, if_pos hv] at h ⊢
      rw [ih (v - 10) h]
      omega
    · simp [adjustAces, if_neg hv] at h
lemma adjustAces_big_fst (v a : Nat) (h : 21 < (adjustAces v a).1) :
    (adjustAces v a).2 = 0 := by
  induction a generalizing v with
  | zero => simp [adjustAces]
  | succ a ih =>
    by_cases hv : 21 < v
    · simp only [adjustAces, if_pos hv] at h ⊢
      exact ih _ h
    · simp only [adjustAces, if_neg hv] at h
      omega

lemma rawSum_append_one (h : List Card) (c : Card) :
    rawSum (h ++ [c]) =
      (if c.rank = Rank.A then ((rawSum h).1 + 11, (rawSum h).2 + 1)
       else ((rawSum h).1 + c.value, (rawSum h).2)) := by
  by_cases hA : c.rank = Rank.A <;>
    simp [rawSum, List.foldl_append, hA]

/-- A hand is hard exactly when the adjustment loop consumed every ace. -/
lemma hard_iff_no_aces_left (cards : List Card)
    (h : (calculateHandValue cards).isSoft = false) :
    (adjustAces (rawSum cards).1 (rawSum cards).2).2 = 0 := by
  simp only [calculateHandValue, Bool.and_eq_false_iff, decide_eq_false_iff_not,
    not_lt, not_le] at h
  rcases h with h | h
  · omega
  · exact adjustAces_big_fst _ _ h

/-- Well-formed sample cards used in concrete runs. -/
def mkCard (r : Rank) : Card := ⟨r, "♠", getCardValue r⟩

/-! ### C2: monotonicity of the hand value under appending a card -/

/-- C2 (amended): appending any card to a hard hand (no Ace currently
counted as 11) never decreases the value returned by
`calculateHandValue`. -/
theorem handValue_mono_of_hard (h : List Card) (c : Card)
    (hard : (calculateHandValue h).isSoft = false) :
    (calculateHandValue h).value ≤ (calculateHandValue (h ++ [c])).value := by
  have hz := hard_iff_no_aces_left h hard
  have hval : (calculateHandValue h).value =
      (rawSum h).1 - 10 * (rawSum h).2 := by
    simpa [calculateHandValue] using adjustAces_snd_zero _ _ hz
  have hlow : ∀ v a : Nat, v - 10 * a ≤ (adjustAces v a).1 := adjustAces_fst_ge
  rw [hval]
  show (rawSum h).1 - 10 * (rawSum h).2 ≤ (calculateHandValue (h ++ [c])).value
  simp only [calculateHandValue, rawSum_append_one]
  by_cases hA : c.rank = Rank.A
  · simp only [if_pos hA]
    have := hlow ((rawSum h).1 + 11) ((rawSum h).2 + 1)
    refine le_trans ?_ this
    omega
  · simp only [if_neg hA]
    have := hlow ((rawSum h).1 + c.value) ((rawSum h).2)
    refine le_trans ?_ this
    omega

/-- Witness for `handValue_mono_of_hard`: the hard hand 10+6, hit with a 10,
goes from 16 to 26 (still counted, never decreases). -/
theorem handValue_mono_of_hard_witness :
    (calculateHandValue [mkCard .r10, mkCard .r6]).isSoft = false ∧
      (calculateHandValue [mkCard .r10, mkCard .r6]).value ≤
        (calculateHandValue ([mkCard .r10, mkCard .r6] ++ [mkCard .r10])).value :=
  ⟨by decide, handValue_mono_of_hard [mkCard .r10, mkCard .r6] (mkCard .r10) (by decide)⟩

/-- C2 counterexample: hitting the soft 20 `A,9` with a 5 drops the hand
value from 20 to 15, so `value` is not monotone under appending a card. -/
theorem handValue_not_mono :
    (calculateHandValue ([mkCard .A, mkCard .r9] ++ [mkCard .r5])).value <
      (calculateHandValue [mkCard .A, mkCard .r9]).value := by decide

/-! ### C3: characterization of `isBlackjack` -/

/-- Two-card blackjack characterization at the level of ranks, settled by
exhaustive evaluation over all 169 rank pairs. -/
lemma isBlackjack_rank_char : ∀ ra rb : Rank,
    isBlackjack [mkCard ra, mkCard rb] = true ↔
      ((ra = Rank.A ∧ getCardValue rb = 10) ∨
       (rb = Rank.A ∧ getCardValue ra = 10)) := by decide

/-- `calculateHandValue` only reads ranks and values, so a two-card
well-formed hand values the same as its canonical `mkCard` counterpart. -/
lemma calculateHandValue_pair_wf (a b : Card)
    (ha : a.value = getCardValue a.rank) (hb : b.value = getCardValue b.rank) :
    calculateHandValue [a, b] = calculateHandValue [mkCard a.rank, mkCard b.rank] := by
  simp [calculateHandValue, rawSum, mkCard, ha, hb]

/-- C3: for well-formed cards, `isBlackjack` holds iff the hand is exactly
two cards, one an Ace and the other of blackjack value 10 (10, J, Q or K). -/
theorem isBlackjack_iff (cards : List Card) (wf : ∀ c ∈ cards, c.wf) :
    isBlackjack cards = true ↔
      ∃ c1 c2, cards = [c1, c2] ∧
        ((c1.rank = Rank.A ∧ getCardValue c2.rank = 10) ∨
         (c2.rank = Rank.A ∧ getCardValue c1.rank = 10)) := by
  match cards with
  | [] => simp [isBlackjack]
  | [a] =>
    constructor
    · intro h; simp [isBlackjack] at h
    · rintro ⟨c1, c2, h, -⟩; simp at h
  | a :: b :: c :: rest =>
    constructor
    · intro h; simp [isBlackjack] at h
    · rintro ⟨c1, c2, h, -⟩; simp at h
  | [a, b] =>
    have ha : a.value = getCardValue a.rank := wf a (by simp)
    have hb : b.value = getCardValue b.rank := wf b (by simp)
    have hbj : isBlackjack [a, b] = isBlackjack [mkCard a.rank, mkCard b.rank] := by
      simp [isBlackjack, calculateHandValue_pair_wf a b ha hb]
    constructor
    · intro h
      exact ⟨a, b, rfl, (isBlackjack_rank_char a.rank b.rank).mp (hbj ▸ h)⟩
    · rintro ⟨c1, c2, heq, hor⟩
      obtain ⟨rfl, rfl⟩ : a = c1 ∧ b = c2 := by simpa using heq
      rw [hbj]
      exact (isBlackjack_rank_char a.rank b.rank).mpr hor

/-- Witness for `isBlackjack_iff`: the hand `A,K` is a blackjack. -/
theorem isBlackjack_iff_witness :
    isBlackjack [mkCard .A, mkCard .K] = true :=
  (isBlackjack_iff [mkCard .A, mkCard .K] (by decide)).mpr
    ⟨mkCard .A, mkCard .K, rfl, Or.inl ⟨rfl, rfl⟩⟩

/-! ### Counter (`CardCounter`) -/

/-- `CardCounter` state: the chosen system's point values and the running
count.  The `description`/`balanced` metadata of the JS table is not used by
any computation and is omitted. -/
structure Counter where
  countingSystem : String
  runningCount : Int
  cardValues : Rank → Int

/-- Point values of the named counting systems (`CardCounter.getCardValues`);
unknown systems fall back to Hi-Lo exactly as in the source. -/
def hiLoValues : Rank → Int
  | .r2 | .r3 | .r4 | .r5 | .r6 => 1
  | .r7 | .r8 | .r9 => 0
  | .r10 | .J | .Q | .K | .A => -1

def hiOpt1Values : Rank → Int
  | .r3 | .r4 | .r5 | .r6 => 1
  | .r2 | .r7 | .r8 | .r9 | .A => 0
  | .r10 | .J | .Q | .K => -1

def hiOpt2Values : Rank → Int
  | .r2 | .r3 | .r6 | .r7 => 1
  | .r4 | .r5 => 2
  | .r8 | .r9 | .A => 0
  | .r10 | .J | .Q | .K => -2

def omega2Values : Rank → Int
  | .r2 | .r3 | .r7 => 1
  | .r4 | .r5 | .r6 => 2
  | .r8 | .A => 0
  | .r9 => -1
  | .r10 | .J | .Q | .K => -2

def koValues : Rank → Int
  | .r2 | .r3 | .r4 | .r5 | .r6 | .r7 => 1
  | .r8 | .r9 => 0
  | .r10 | .J | .Q | .K | .A => -1

def aceFiveValues : Rank → Int
  | .r5 => 1
  | .A => -1
  | _ => 0

def systemValues (system : String) : Rank → Int :=
  if system = "Hi-Opt I" then hiOpt1Values
  else if system = "Hi-Opt II" then hiOpt2Values
  else if system = "Omega II" then omega2Values
  else if system = "KO (Knockout)" then koValues
  else if system = "Ace-Five" then aceFiveValues
  else hiLoValues

/-- `new CardCounter(system)`. -/
def Counter.new (system : String) : Counter :=
  { countingSystem := system, runningCount := 0, cardValues := systemValues system }

/-- `CardCounter.updateCount`. -/
def Counter.updateCount (c : Counter) (card : Card) : Counter :=
  { c with runningCount := c.runningCount + c.cardValues card.rank }

/-- `CardCounter.reset`. -/
def Counter.reset (c : Counter) : Counter := { c with runningCount := 0 }

/-- `CardCounter.getTrueCount`: running count over remaining decks, guarded
against a non-positive denominator. -/
def Counter.getTrueCount (c : Counter) (remainingCards _numDecks : Nat) : Rat :=
  let remainingDecks : Rat := (remainingCards : Rat) / 52
  if remainingDecks ≤ 0 then 0 else (c.runningCount : Rat) / remainingDecks

/-- JS `Math.round`: half-up rounding, also for negatives. -/
def jsRound (x : Rat) : Int := ⌊x + 1 / 2⌋

/-- `CardCounter.getCountRange`: true count rounded to the nearest integer. -/
def Counter.getCountRange (c : Counter) (remainingCards numDecks : Nat) : Int :=
  jsRound (c.getTrueCount remainingCards numDecks)

def Counter.getRunningCount (c : Counter) : Int := c.runningCount

/-! ### Deck (shoe) -/

/-- The shoe.  `rng` is the explicit stream of `Math.random` draws consumed
by Fisher-Yates shuffles (one natural per swap, reduced mod the window). -/
structure Deck where
  numDecks : Nat
  cards : List Card
  usedCards : List Card
  penetration : Rat
  penetrationThreshold : Rat
  rng : List Nat

def suitsList : List String := ["♠", "♥", "♦", "♣"]

def ranksList : List Rank :=
  [.A, .r2, .r3, .r4, .r5, .r6, .r7, .r8, .r9, .r10, .J, .Q, .K]

/-- One 52-card deck in builder order (suits outer, ranks inner). -/
def oneDeck : List Card :=
  suitsList.flatMap (fun s => ranksList.map (fun r => ⟨r, s, getCardValue r⟩))

/-- `numDecks` copies of the 52-card deck, in loop order. -/
def buildCards : Nat → List Card
  | 0 => []
  | n + 1 => buildCards n ++ oneDeck

/-- In-place swap of two list positions (the Fisher-Yates swap). -/
def listSwap (l : List Card) (i j : Nat) : List Card :=
  (l.set i (l.getD j default)).set j (l.getD i default)

/-- Fisher-Yates loop body: at index `i+1`, draw `j ∈ [0, i+1]` from the
random stream and swap. -/
def fyGo : Nat → List Card → List Nat → List Card × List Nat
  | 0, l, rng => (l, rng)
  | i + 1, l, rng => fyGo i (listSwap l (i + 1) (rng.headD 0 % (i + 2))) rng.tail

/-- The full Fisher-Yates shuffle over a card list. -/
def fisherYates (l : List Card) (rng : List Nat) : List Card × List Nat :=
  fyGo (l.length - 1) l rng

/-- `Deck.shuffle`: rebuild the shoe, shuffle it, clear the consumed pile,
reset penetration, and reset the supplied counter. -/
def Deck.shuffle (d : Deck) (counter : Option Counter) : Deck × Option Counter :=
  let fy := fisherYates (buildCards d.numDecks) d.rng
  ({ d with cards := fy.1, usedCards := [], penetration := 0, rng := fy.2 },
   counter.map Counter.reset)

def Deck.getRemainingCards (d : Deck) : Nat := d.cards.length

def Deck.setPenetration (d : Deck) (pct : Rat) : Deck :=
  { d with penetrationThreshold := pct }

/-- `Deck.shouldReshuffle`. -/
def Deck.shouldReshuffle (d : Deck) : Bool :=
  decide (d.penetrationThreshold ≤ d.penetration) && decide (d.cards.length < 52)

/-- `Deck.dealCard`: shuffle first if the shoe is empty, pop the top card,
track it, feed the counter, and recompute penetration. -/
def Deck.dealCard (d : Deck) (counter : Option Counter) :
    Card × Deck × Option Counter :=
  let s := if d.cards.isEmpty then d.shuffle counter else (d, counter)
  let d := s.1
  let card := d.cards.getLastD default
  let used := d.usedCards ++ [card]
  let pen : Rat := ((used.length : Nat) : Rat) / ((d.numDecks * 52 : Nat) : Rat) * 100
  (card,
   { d with cards := d.cards.dropLast, usedCards := used, penetration := pen },
   s.2.map (fun c => c.updateCount card))

/-- `new Deck(numDecks)`: the constructor shuffles immediately. -/
def Deck.new (numDecks : Nat) (rng : List Nat) : Deck :=
  (Deck.shuffle
    { numDecks := numDecks, cards := [], usedCards := [], penetration := 0,
      penetrationThreshold := 75, rng := rng } none).1

/-- `k` successive `dealCard` calls. -/
def dealN : Nat → Deck → Option Counter → Deck × Option Counter
  | 0, d, c => (d, c)
  | k + 1, d, c =>
    let r := d.dealCard c
    dealN k r.2.1 r.2.2

/-! ### C8 machinery: lengths are preserved by the shuffle -/

lemma length_listSwap (l : List Card) (i j : Nat) :
    (listSwap l i j).length = l.length := by
  simp [listSwap]

lemma fyGo_length (i : Nat) (l : List Card) (rng : List Nat) :
    (fyGo i l rng).1.length = l.length := by
  induction i generalizing l rng with
  | zero => simp [fyGo]
  | succ i ih => simp [fyGo, ih, length_listSwap]

lemma fisherYates_length (l : List Card) (rng : List Nat) :
    (fisherYates l rng).1.length = l.length := fyGo_length _ _ _

lemma length_oneDeck : oneDeck.length = 52 := by decide

lemma length_buildCards (n : Nat) : (buildCards n).length = 52 * n := by
  induction n with
  | zero => simp [buildCards]
  | succ n ih => simp [buildCards, ih, length_oneDeck]; ring

/-- `dealCard` on a non-empty shoe: pop the last card, extend the consumed
pile, recompute penetration. -/
lemma dealCard_of_ne_empty (d : Deck) (c : Option Counter)
    (h : d.cards.isEmpty = false) :
    d.dealCard c = (d.cards.getLastD default,
      { d with cards := d.cards.dropLast,
               usedCards := d.usedCards ++ [d.cards.getLastD default],
               penetration := (((d.usedCards.length + 1 : Nat)) : Rat) /
                 ((d.numDecks * 52 : Nat) : Rat) * 100 },
      c.map (fun ctr => ctr.updateCount (d.cards.getLastD default))) := by
  simp [Deck.dealCard, h]

/-- Invariant of the deal loop: card totals and the penetration field track
the number of cards consumed since the last shuffle. -/
lemma dealN_inv (n : Nat) (thr : Rat) (k : Nat) :
    ∀ (d : Deck) (c : Option Counter) (j : Nat),
      d.numDecks = n → d.penetrationThreshold = thr →
      d.cards.length = 52 * n - j → d.usedCards.length = j →
      d.penetration = ((j : Nat) : Rat) / ((n * 52 : Nat) : Rat) * 100 →
      j + k ≤ 52 * n →
      (dealN k d c).1.numDecks = n ∧
      (dealN k d c).1.penetrationThreshold = thr ∧
      (dealN k d c).1.cards.length = 52 * n - (j + k) ∧
      (dealN k d c).1.usedCards.length = j + k ∧
      (dealN k d c).1.penetration =
        (((j + k : Nat)) : Rat) / ((n * 52 : Nat) : Rat) * 100 := by
  induction k with
  | zero => intro d c j h1 h2 h3 h4 h5 h6; simp [dealN, h1, h2, h3, h4, h5]
  | succ k ih =>
    intro d c j h1 h2 h3 h4 h5 h6
    have hne : d.cards.isEmpty = false := by
      cases hcc : d.cards with
      | nil => rw [hcc] at h3; simp at h3; omega
      | cons a t => rfl
    have hstep := dealCard_of_ne_empty d c hne
    have hA : (d.dealCard c).2.1.numDecks = n := by rw [hstep]; exact h1
    have hB : (d.dealCard c).2.1.penetrationThreshold = thr := by
      rw [hstep]; exact h2
    have hC : (d.dealCard c).2.1.cards.length = 52 * n - (j + 1) := by
      rw [hstep]; simp only [List.length_dropLast, h3]; omega
    have hD : (d.dealCard c).2.1.usedCards.length = j + 1 := by
      rw [hstep]; simp [h4]
    have hE : (d.dealCard c).2.1.penetration =
        (((j + 1 : Nat)) : Rat) / ((n * 52 : Nat) : Rat) * 100 := by
      rw [hstep]; simp only [h4, h1]
    have hrec := ih (d.dealCard c).2.1 (d.dealCard c).2.2 (j + 1)
      hA hB hC hD hE (by omega)
    have hj : j + (k + 1) = (j + 1) + k := by omega
    rw [hj]
    simpa [dealN] using hrec

/-- C8: starting from a freshly constructed shoe with threshold `thr`, after
`k ≤ 52·numDecks` deals the penetration field equals `k/(numDecks·52)·100`,
`shouldReshuffle` holds exactly when that percentage reaches the threshold
and fewer than 52 cards remain, and any reshuffle resets both the
penetration and the attached counter's running count to zero. -/
theorem deck_penetration_spec (n : Nat) (rng : List Nat) (thr : Rat)
    (ctr : Option Counter) (k : Nat) (hk : k ≤ 52 * n) :
    ((dealN k ((Deck.new n rng).setPenetration thr) ctr).1.penetration =
        ((k : Nat) : Rat) / ((n * 52 : Nat) : Rat) * 100) ∧
    ((dealN k ((Deck.new n rng).setPenetration thr) ctr).1.cards.length =
        52 * n - k) ∧
    ((dealN k ((Deck.new n rng).setPenetration thr) ctr).1.shouldReshuffle = true ↔
      (thr ≤ ((k : Nat) : Rat) / ((n * 52 : Nat) : Rat) * 100 ∧ 52 * n - k < 52)) ∧
    (∀ (d : Deck) (c : Counter),
      (d.shuffle (some c)).1.penetration = 0 ∧
      (d.shuffle (some c)).2 = some { c with runningCount := 0 }) := by
  have base : ((Deck.new n rng).setPenetration thr).cards.length = 52 * n := by
    simp [Deck.new, Deck.setPenetration, Deck.shuffle, fisherYates_length,
      length_buildCards]
  have inv := dealN_inv n thr k ((Deck.new n rng).setPenetration thr) ctr 0
    (by simp [Deck.new, Deck.setPenetration, Deck.shuffle])
    (by simp [Deck.new, Deck.setPenetration, Deck.shuffle])
    (by simpa using base)
    (by simp [Deck.new, Deck.setPenetration, Deck.shuffle])
    (by simp [Deck.new, Deck.setPenetration, Deck.shuffle])
    (by omega)
  refine ⟨by simpa using inv.2.2.2.2, by simpa using inv.2.2.1, ?_, ?_⟩
  · simp only [Deck.shouldReshuffle, Bool.and_eq_true, decide_eq_true_eq]
    rw [show (0 + k) = k from by omega] at inv
    rw [inv.2.2.2.2, inv.2.2.1, inv.2.1]
  · intro d c
    simp [Deck.shuffle, Counter.reset]

/-- Witness for `deck_penetration_spec`: a single-deck shoe after 13 deals
sits at 25% penetration with 39 cards left and no reshuffle due at the
default 75% threshold. -/
theorem deck_penetration_spec_witness :
    (13 : Nat) ≤ 52 * 1 ∧
      ((dealN 13 ((Deck.new 1 []).setPenetration 75) none).1.penetration =
          ((13 : Nat) : Rat) / ((1 * 52 : Nat) : Rat) * 100) ∧
      ((dealN 13 ((Deck.new 1 []).setPenetration 75) none).1.cards.length =
          52 * 1 - 13) :=
  ⟨by omega,
    (deck_penetration_spec 1 [] 75 none 13 (by omega)).1,
    (deck_penetration_spec 1 [] 75 none 13 (by omega)).2.1⟩

/-! ### Rules and dealer play -/

/-- Game rules. `dealerStandsOn` keeps the source's string encoding:
`"17s"` means stand on all 17s; anything else hits soft 17. -/
structure Rules where
  dealerStandsOn : String
  doubleAfterSplit : Bool
  allowResplit : Bool
  resplitAces : Bool
  blackjackPays : String

/-- Loop condition of `playDealer`: not bust, and below the stand value
determined by the soft-17 rule. -/
def dealerShouldHit (rules : Rules) (cards : List Card) : Bool :=
  let hv := calculateHandValue cards
  if 21 < hv.value then false
  else
    let standValue : Nat :=
      if rules.dealerStandsOn = "17s" then 17
      else if hv.isSoft && hv.value == 17 then 18 else 17
    decide (hv.value < standValue)

/-- `BlackjackGame.playDealer`, with explicit fuel for the unbounded
`while (true)` loop. -/
def playDealer (rules : Rules) :
    Nat → List Card → Deck → Option Counter → List Card × Deck × Option Counter
  | 0, hand, d, c => (hand, d, c)
  | fuel + 1, hand, d, c =>
    if dealerShouldHit rules hand then
      let r := d.dealCard c
      playDealer rules fuel (hand ++ [r.1]) r.2.1 r.2.2
    else (hand, d, c)

/-! ### C1: dealer hitting discipline -/

/-- C1: the dealer draws exactly while the hand value is below 17 — or at a
soft 17 when the hit-soft-17 rule is in effect — and `playDealer` stops
immediately (returning the hand unchanged) in every other situation,
including hard 17, any value above 17 and busts. -/
theorem playDealer_hit_discipline (rules : Rules) (hand : List Card)
    (fuel : Nat) (d : Deck) (c : Option Counter) :
    (dealerShouldHit rules hand = true ↔
      ((calculateHandValue hand).value < 17 ∨
        (rules.dealerStandsOn ≠ "17s" ∧ (calculateHandValue hand).value = 17 ∧
          (calculateHandValue hand).isSoft = true))) ∧
    (dealerShouldHit rules hand = false →
      playDealer rules (fuel + 1) hand d c = (hand, d, c)) ∧
    (dealerShouldHit rules hand = true →
      playDealer rules (fuel + 1) hand d c =
        playDealer rules fuel (hand ++ [(d.dealCard c).1])
          (d.dealCard c).2.1 (d.dealCard c).2.2) := by
  refine ⟨?_, ?_, ?_⟩
  · simp only [dealerShouldHit, ne_eq]
    split_ifs with hbust hrule hsoft
    · constructor
      · intro h; cases h
      · rintro (h | ⟨-, h, -⟩) <;> omega
    · simp only [decide_eq_true_eq]
      constructor
      · exact Or.inl
      · rintro (h | ⟨hne, -, -⟩)
        · exact h
        · exact absurd hrule hne
    · simp only [Bool.and_eq_true, beq_iff_eq] at hsoft
      simp only [decide_eq_true_eq]
      constructor
      · intro _; exact Or.inr ⟨hrule, hsoft.2, hsoft.1⟩
      · intro _; omega
    · simp only [Bool.and_eq_true, beq_iff_eq, not_and] at hsoft
      simp only [decide_eq_true_eq]
      constructor
      · exact Or.inl
      · rintro (h | ⟨-, h17, hs⟩)
        · exact h
        · exact absurd h17 (hsoft hs)
  · intro h
    simp [playDealer, h]
  · intro h
    simp [playDealer, h]

/-- Witness for `playDealer_hit_discipline`: the dealer stands pat on the
hard 17 `10,7` even with fuel and cards available. -/
theorem playDealer_hit_discipline_witness :
    dealerShouldHit
        ⟨"17", true, true, false, "3:2"⟩ [mkCard .r10, mkCard .r7] = false ∧
      playDealer ⟨"17", true, true, false, "3:2"⟩ 6
        [mkCard .r10, mkCard .r7] (Deck.new 1 []) none =
        ([mkCard .r10, mkCard .r7], Deck.new 1 [], none) :=
  ⟨by decide,
    (playDealer_hit_discipline ⟨"17", true, true, false, "3:2"⟩
      [mkCard .r10, mkCard .r7] 5 (Deck.new 1 []) none).2.1 (by decide)⟩

/-! ### Strategy table -/

/-- `startsWith` specialised to the single-character prefixes the source
uses, computed on the character list so the kernel can evaluate it. -/
def strStartsWith (s : String) (c : Char) : Bool :=
  match s.toList with
  | x :: _ => x == c
  | [] => false

/-- JS `includes(',')`, computed on the character list. -/
def strContainsComma (s : String) : Bool := s.toList.contains ','

/-- JS `split(',')`, computed on the character list. -/
def splitCommaAux : List Char → List Char → List String
  | [], acc => [String.mk acc.reverse]
  | ',' :: rest, acc => String.mk acc.reverse :: splitCommaAux rest []
  | c :: rest, acc => splitCommaAux rest (c :: acc)

def splitOnComma (s : String) : List String := splitCommaAux s.toList []

/-- JS `parseInt` on the label strings: optional sign, then the longest
leading digit run; `none` models `NaN`. -/
def jsParseInt (s : String) : Option Int :=
  let t := s.toList
  let p : Int × List Char :=
    match t with
    | '-' :: rest => (-1, rest)
    | '+' :: rest => (1, rest)
    | _ => (1, t)
  let ds := p.2.takeWhile Char.isDigit
  if ds.isEmpty then none
  else some (p.1 * ((ds.foldl (fun n c => n * 10 + (c.toNat - 48)) 0 : Nat) : Int))

/-- A strategy table level: JS object keyed by total then dealer label,
missing entries as `none`. -/
def Tbl := Int → String → Option String

/-- A count-indexed table level, keyed by the stringified count first. -/
def CTbl := String → Int → String → Option String

/-- The `Strategy` object: base tables, count-indexed overrides, and the
count-based flag. -/
structure Strategy where
  countBased : Bool
  hard : Tbl
  soft : Tbl
  pairs : Tbl
  hardByCount : CTbl
  softByCount : CTbl
  pairsByCount : CTbl

/-- `initializeEmpty` hard table: totals 5-21, all dealer keys, `'S'`. -/
def dealerKeys : List String := ["2", "3", "4", "5", "6", "7", "8", "9", "10", "A"]

def initHard : Tbl := fun t d =>
  if 5 ≤ t ∧ t ≤ 21 ∧ d ∈ dealerKeys then some "S" else none

def initSoft : Tbl := fun t d =>
  if 13 ≤ t ∧ t ≤ 21 ∧ d ∈ dealerKeys then some "S" else none

def initPairs : Tbl := fun t d =>
  if 2 ≤ t ∧ t ≤ 11 ∧ d ∈ dealerKeys then some "H" else none

def emptyCTbl : CTbl := fun _ _ _ => none

/-- A freshly constructed `Strategy` (constructor + `initializeEmpty`). -/
def Strategy.new : Strategy :=
  { countBased := false, hard := initHard, soft := initSoft, pairs := initPairs,
    hardByCount := emptyCTbl, softByCount := emptyCTbl, pairsByCount := emptyCTbl }

/-- The double-to-hit downgrade applied at every `getAction` return site. -/
def downgradeD (action : String) (canDouble : Bool) : String :=
  if action = "D" ∧ canDouble = false then "H" else action

/-- Pair rank label to its table index (`'A'`→11, faces→10, else
`parseInt`); `none` is the `NaN` index, which never matches an entry. -/
def pairValueOf (c0 : String) : Option Int :=
  if c0 = "A" then some 11
  else if c0 = "J" ∨ c0 = "Q" ∨ c0 = "K" then some 10
  else jsParseInt c0

/-- Count-layer pair lookup of `getAction`. -/
def countPairLookup (s : Strategy) (countKey playerTotal dealer : String)
    (canSplit : Bool) : Option String :=
  if canSplit && strContainsComma playerTotal then
    let cards := splitOnComma playerTotal
    if cards.getD 0 "" = cards.getD 1 "" then
      match pairValueOf (cards.getD 0 "") with
      | some v => s.pairsByCount countKey v dealer
      | none => none
    else none
  else none

/-- Count-layer soft/hard lookup of `getAction`. -/
def countSoftHardLookup (s : Strategy) (countKey playerTotal dealer : String) :
    Option String :=
  if strStartsWith playerTotal 'S' then
    match jsParseInt (playerTotal.drop 1) with
    | some t => s.softByCount countKey t dealer
    | none => none
  else
    match jsParseInt playerTotal with
    | some t => s.hardByCount countKey t dealer
    | none => none

/-- Base-layer pair lookup of `getAction` (with the 2..11 range guard). -/
def basePairLookup (s : Strategy) (playerTotal dealer : String)
    (canSplit : Bool) : Option String :=
  if canSplit && strContainsComma playerTotal then
    let cards := splitOnComma playerTotal
    if cards.getD 0 "" = cards.getD 1 "" then
      match pairValueOf (cards.getD 0 "") with
      | some v => if 2 ≤ v ∧ v ≤ 11 then s.pairs v dealer else none
      | none => none
    else none
  else none

/-- Base-layer soft lookup of `getAction` (with the 13..21 range guard). -/
def baseSoftLookup (s : Strategy) (playerTotal dealer : String) :
    Option String :=
  if strStartsWith playerTotal 'S' then
    match jsParseInt (playerTotal.drop 1) with
    | some t => if 13 ≤ t ∧ t ≤ 21 then s.soft t dealer else none
    | none => none
  else none

/-- `Strategy.getAction`: count-specific layer first (when enabled and the
count is nonzero), then the base layer, then the built-in defaults; every
found Double is downgraded to Hit when doubling is not allowed. -/
def Strategy.getAction (s : Strategy) (playerTotal dealerCard : String)
    (canDouble canSplit : Bool) (count : Int) : String :=
  let dealer := if dealerCard = "A" ∨ dealerCard = "11" then "A" else dealerCard
  let fromCount : Option String :=
    if s.countBased && !(count == 0) then
      let countKey := toString count
      (countPairLookup s countKey playerTotal dealer canSplit).orElse
        (fun _ => countSoftHardLookup s countKey playerTotal dealer)
    else none
  match fromCount with
  | some action => downgradeD action canDouble
  | none =>
    match basePairLookup s playerTotal dealer canSplit with
    | some action => downgradeD action canDouble
    | none =>
      match baseSoftLookup s playerTotal dealer with
      | some action => downgradeD action canDouble
      | none =>
        if !(strStartsWith playerTotal 'S') && !(strContainsComma playerTotal) then
          match jsParseInt playerTotal with
          | some t =>
            match (if 5 ≤ t ∧ t ≤ 21 then s.hard t dealer else none) with
            | some action => downgradeD action canDouble
            | none => if t < 17 then "H" else "S"
          | none => "S"
        else if strStartsWith playerTotal 'S' then
          match jsParseInt (playerTotal.drop 1) with
          | some t => if t < 19 then "H" else "S"
          | none => "S"
        else "S"

/-- The export payload: all four mapping families plus the flag.  The JSON
deep-clone of these pure string tables is modelled as the identity; fields
are optional because `importData` guards on their presence. -/
structure StrategyData where
  countBased : Option Bool
  hard : Option Tbl
  soft : Option Tbl
  pairs : Option Tbl
  hardByCount : Option CTbl
  softByCount : Option CTbl
  pairsByCount : Option CTbl

/-- `Strategy.exportData`. -/
def Strategy.exportData (s : Strategy) : StrategyData :=
  { countBased := some s.countBased, hard := some s.hard, soft := some s.soft,
    pairs := some s.pairs, hardByCount := some s.hardByCount,
    softByCount := some s.softByCount, pairsByCount := some s.pairsByCount }

/-- `Strategy.importData`: re-initialize, overwrite each base table that the
payload supplies, always replace the count-indexed tables (empty fallback),
and set the flag via `enableCountBased(!!data.countBased)`.  Every field of
the receiver is overwritten, hence the receiver argument is unused. -/
def Strategy.importData (_this : Strategy) (data : StrategyData) : Strategy :=
  { countBased := data.countBased.getD false,
    hard := data.hard.getD initHard,
    soft := data.soft.getD initSoft,
    pairs := data.pairs.getD initPairs,
    hardByCount := data.hardByCount.getD emptyCTbl,
    softByCount := data.softByCount.getD emptyCTbl,
    pairsByCount := data.pairsByCount.getD emptyCTbl }

/-! ### C5: export/import round trip -/

/-- C5: importing an exported strategy reproduces every `getAction` lookup
(hence in particular every combination that had explicit entries) and
preserves the count-based flag, whatever strategy receives the import. -/
theorem strategy_roundtrip (r s : Strategy) (playerTotal dealerCard : String)
    (canDouble canSplit : Bool) (count : Int) :
    (r.importData s.exportData).getAction playerTotal dealerCard
        canDouble canSplit count =
      s.getAction playerTotal dealerCard canDouble canSplit count ∧
    (r.importData s.exportData).countBased = s.countBased := by
  have h : r.importData s.exportData = s := rfl
  rw [h]
  exact ⟨rfl, rfl⟩

/-! ### Player hand play (`playHand`) -/

/-- One player hand in the worklist: cards, bet multiplier, and the
optional terminal result tag (`'lose'`). -/
structure PlayerHand where
  cards : List Card
  bet : Nat
  result : Option String
  deriving DecidableEq, Repr

instance : Inhabited PlayerHand := ⟨⟨[], 1, none⟩⟩

/-- Output of `playHand`: the final worklist, the total bet units, and the
threaded deck/counter state. -/
structure PlayHandOut where
  hands : List PlayerHand
  totalBet : Nat
  deck : Deck
  counter : Option Counter

/-- The pair lookup label: normalized rank (`'A'`, `'10'`, or the numeric
value), repeated around a comma. -/
def pairLabelOf (first : Card) : String :=
  let normalized :=
    if first.rank = Rank.A then "A"
    else if first.value = 10 then "10" else toString first.value
  normalized ++ "," ++ normalized

/-- The hard/soft total label (`'16'` or `'S17'`). -/
def handTotalLabel (hv : HandValue) : String :=
  if hv.isSoft then "S" ++ toString hv.value else toString hv.value

/-- The dealer up-card label (`'A'` for value 11, else the value). -/
def dealerLabelOf (dealerUpCard : Card) : String :=
  if dealerUpCard.value = 11 then "A" else toString dealerUpCard.value

/-- The count consulted for strategy lookups: 0 without a counter, else the
rounded true count. -/
def countOf (deck : Deck) (counter : Option Counter) : Int :=
  match counter with
  | none => 0
  | some c => c.getCountRange deck.getRemainingCards deck.numDecks

/-- The resplit gate of `playHand`: free while the worklist still has a
single hand, otherwise governed by the resplit flags (aces vs. others).
Note it depends on the number of hands, not on the hand's index. -/
def handCanResplit (rules : Rules) (handsLen : Nat) (isAcePair : Bool) : Bool :=
  if 1 < handsLen then
    (if isAcePair then rules.resplitAces else rules.allowResplit)
  else true

/-- The worklist loop of `BlackjackGame.playHand`: hand `i` is played until
it stands, doubles, busts or runs out of legal actions; split hands are
appended and played later in the same pass. -/
def playHandLoop (rules : Rules) (strat : Strategy) (dealerUpCard : Card)
    (canDouble0 : Bool) :
    Nat → List PlayerHand → Nat → Deck → Option Counter → Nat → PlayHandOut
  | 0, hands, _, deck, ctr, totalBet => ⟨hands, totalBet, deck, ctr⟩
  | fuel + 1, hands, i, deck, ctr, totalBet =>
    match hands[i]? with
    | none => ⟨hands, totalBet, deck, ctr⟩
    | some hand =>
      if isBust hand.cards || isBlackjack hand.cards then
        playHandLoop rules strat dealerUpCard canDouble0 fuel hands (i + 1)
          deck ctr totalBet
      else
        let hv := calculateHandValue hand.cards
        let isPair := hand.cards.length == 2 && canSplitCards hand.cards
        let isAcePair := isPair && ((hand.cards.getD 0 default).rank == Rank.A)
        let hasSplit := decide (1 < hands.length)
        let canResplit := handCanResplit rules hands.length isAcePair
        let playerTotal :=
          if isPair && (!hasSplit || canResplit) then
            pairLabelOf (hand.cards.getD 0 default)
          else handTotalLabel hv
        let dealerCard := dealerLabelOf dealerUpCard
        let count := countOf deck ctr
        let canDoubleThisHand := hand.cards.length == 2 &&
          ((i == 0 && canDouble0) || (decide (0 < i) && rules.doubleAfterSplit))
        let canSplitThisHand := isPair && canResplit
        let action := strat.getAction playerTotal dealerCard canDoubleThisHand
          canSplitThisHand count
        if action = "H" then
          let r := deck.dealCard ctr
          let cards' := hand.cards ++ [r.1]
          if isBust cards' then
            playHandLoop rules strat dealerUpCard canDouble0 fuel
              (hands.set i { hand with cards := cards', result := some "lose" })
              (i + 1) r.2.1 r.2.2 totalBet
          else
            playHandLoop rules strat dealerUpCard canDouble0 fuel
              (hands.set i { hand with cards := cards' }) i r.2.1 r.2.2 totalBet
        else if action = "S" then
          playHandLoop rules strat dealerUpCard canDouble0 fuel hands (i + 1)
            deck ctr totalBet
        else if action = "D" then
          if canDoubleThisHand then
            let newBet := hand.bet * 2
            let r := deck.dealCard ctr
            playHandLoop rules strat dealerUpCard canDouble0 fuel
              (hands.set i { hand with bet := newBet, cards := hand.cards ++ [r.1] })
              (i + 1) r.2.1 r.2.2 (totalBet + newBet / 2)
          else
            let r := deck.dealCard ctr
            let cards' := hand.cards ++ [r.1]
            if isBust cards' then
              playHandLoop rules strat dealerUpCard canDouble0 fuel
                (hands.set i { hand with cards := cards', result := some "lose" })
                (i + 1) r.2.1 r.2.2 totalBet
            else
              playHandLoop rules strat dealerUpCard canDouble0 fuel
                (hands.set i { hand with cards := cards' }) i r.2.1 r.2.2 totalBet
        else if action = "P" then
          if canSplitThisHand then
            let card := hand.cards.getLastD default
            let rest := hand.cards.dropLast
            let r1 := deck.dealCard ctr
            let newHand : PlayerHand := ⟨[card, r1.1], hand.bet, none⟩
            let r2 := r1.2.1.dealCard r1.2.2
            playHandLoop rules strat dealerUpCard canDouble0 fuel
              ((hands.set i { hand with cards := rest ++ [r2.1] }) ++ [newHand])
              i r2.2.1 r2.2.2 (totalBet + hand.bet)
          else
            let r := deck.dealCard ctr
            let cards' := hand.cards ++ [r.1]
            if isBust cards' then
              playHandLoop rules strat dealerUpCard canDouble0 fuel
                (hands.set i { hand with cards := cards', result := some "lose" })
                (i + 1) r.2.1 r.2.2 totalBet
            else
              playHandLoop rules strat dealerUpCard canDouble0 fuel
                (hands.set i { hand with cards := cards' }) i r.2.1 r.2.2 totalBet
        else
          playHandLoop rules strat dealerUpCard canDouble0 fuel hands (i + 1)
            deck ctr totalBet

/-- `BlackjackGame.playHand`.  The `canSplit` parameter of the source is
declared but never read by the body; it is kept for signature fidelity. -/
def playHand (rules : Rules) (strat : Strategy) (deck : Deck)
    (ctr : Option Counter) (initialCards : List Card) (dealerUpCard : Card)
    (canDouble0 : Bool) (_canSplitParam : Bool) (fuel : Nat) : PlayHandOut :=
  playHandLoop rules strat dealerUpCard canDouble0 fuel
    [⟨initialCards, 1, none⟩] 0 deck ctr 1

/-! ### C4: the split permission gate -/

lemma handCanResplit_of_flags_off (rules : Rules) (len : Nat) (ap : Bool)
    (h1 : rules.allowResplit = false) (h2 : rules.resplitAces = false)
    (hlen : 1 < len) : handCanResplit rules len ap = false := by
  cases ap <;> simp [handCanResplit, hlen, h1, h2]

/-- With both resplit flags off, one pass of the worklist loop never grows
the worklist beyond two hands: after the single permitted split, the gate
closes for every hand, the index-0 hand included. -/
lemma playHandLoop_len_le_two (rules : Rules) (strat : Strategy) (up : Card)
    (cd0 : Bool) (h1 : rules.allowResplit = false)
    (h2 : rules.resplitAces = false) :
    ∀ fuel hands i deck ctr tb, hands.length ≤ 2 →
      (playHandLoop rules strat up cd0 fuel hands i deck ctr tb).hands.length ≤ 2 := by
  intro fuel
  induction fuel with
  | zero => intro hands i deck ctr tb hlen; simpa [playHandLoop] using hlen
  | succ fuel ih =>
    intro hands i deck ctr tb hlen
    rw [playHandLoop]
    cases hidx : hands[i]? with
    | none => simpa using hlen
    | some hand =>
      simp only
      repeat' split
      all_goals
        first
        | exact ih _ _ _ _ _ hlen
        | exact ih _ _ _ _ _ (by simpa using hlen)
        | (refine ih _ _ _ _ _ ?_
           by_contra hku
           have h3 : 1 < hands.length := by
             simp only [List.length_append, List.length_set, List.length_cons,
               List.length_nil] at hku
             omega
           have hf : ∀ ap, handCanResplit rules hands.length ap = false :=
             fun ap => handCanResplit_of_flags_off rules hands.length ap h1 h2 h3
           simp_all [hf])

/-- C4 (amended): while no split has yet occurred (a single hand in the
worklist) the gate `handCanResplit` consulted by `playHand` is
unconditionally open; once any split has occurred, with resplitting
disabled (`allowResplit = resplitAces = false`) no hand — the hand at
index 0 included — may split again, so `playHand` never produces more than
two hands. -/
theorem playHand_split_gate (rules : Rules) (strat : Strategy) (up : Card)
    (cd0 : Bool) (h1 : rules.allowResplit = false)
    (h2 : rules.resplitAces = false) :
    (∀ len ap, len ≤ 1 → handCanResplit rules len ap = true) ∧
    (∀ fuel deck ctr cards cs,
      (playHand rules strat deck ctr cards up cd0 cs fuel).hands.length ≤ 2) := by
  constructor
  · intro len ap hlen
    have : ¬ 1 < len := by omega
    simp [handCanResplit, this]
  · intro fuel deck ctr cards cs
    exact playHandLoop_len_le_two rules strat up cd0 h1 h2 fuel _ 0 deck ctr 1
      (by simp)

/-! Concrete material for the C4 counterexample and witnesses. -/

def rulesNoResplit : Rules := ⟨"17", true, false, false, "3:2"⟩

def rulesWithResplit : Rules := ⟨"17", true, true, false, "3:2"⟩

/-- A strategy that always splits pairs of 8s and stands otherwise. -/
def stratSplit8 : Strategy :=
  { Strategy.new with
    hard := fun _ _ => some "S",
    soft := fun _ _ => some "S",
    pairs := fun t _ => if t = 8 then some "P" else some "S" }

/-- A deck whose next deals (from the end) are 7, 8, 7, 7. -/
def deckSplit8 : Deck :=
  { numDecks := 6, cards := [mkCard .r7, mkCard .r7, mkCard .r8, mkCard .r7],
    usedCards := [], penetration := 0, penetrationThreshold := 75, rng := [] }

/-- C4 counterexample: playing a pair of 8s with `allowResplit = false`, the
first split deals hand 0 another 8 — a splittable pair at worklist index 0
whose pair-strategy entry says split — yet the round ends with two hands and
hand 0 still holding `8,8`: index 0 is *not* always structurally permitted
to split once a split has occurred.  The same deck with
`allowResplit = true` resplits to three hands, showing the flag (not the
index) is what gates hand 0. -/
theorem playHand_split_gate_counterexample :
    (playHand rulesNoResplit stratSplit8 deckSplit8 none
        [mkCard .r8, mkCard .r8] (mkCard .r10) true true 20).hands.length = 2 ∧
    ((playHand rulesNoResplit stratSplit8 deckSplit8 none
        [mkCard .r8, mkCard .r8] (mkCard .r10) true true 20).hands.getD 0
          default).cards = [mkCard .r8, mkCard .r8] ∧
    canSplitCards [mkCard .r8, mkCard .r8] = true ∧
    stratSplit8.getAction "8,8" "10" true true 0 = "P" ∧
    rulesNoResplit.allowResplit = false ∧
    (playHand rulesWithResplit stratSplit8 deckSplit8 none
        [mkCard .r8, mkCard .r8] (mkCard .r10) true true 20).hands.length = 3 :=
  ⟨rfl, rfl, rfl, rfl, rfl, rfl⟩

/-- Witness for `playHand_split_gate`: under the no-resplit rules the 8,8
run stays at two hands, within the proven bound. -/
theorem playHand_split_gate_witness :
    rulesNoResplit.allowResplit = false ∧ rulesNoResplit.resplitAces = false ∧
      (playHand rulesNoResplit stratSplit8 deckSplit8 none
        [mkCard .r8, mkCard .r8] (mkCard .r10) true true 20).hands.length ≤ 2 :=
  ⟨rfl, rfl,
    (playHand_split_gate rulesNoResplit stratSplit8 (mkCard .r10) true rfl rfl).2
      20 deckSplit8 none [mkCard .r8, mkCard .r8] true⟩

/-! ### Full game (`playGame`) -/

/-- The initial decision attached to a full-play result. -/
structure InitialDecision where
  playerTotal : HandValue
  dealerCard : Card
  action : String
  deriving Repr

/-- A `playGame` result.  The natural-blackjack early returns of the source
omit the `hands`/`initialDecision` fields, hence the `Option`s. -/
structure GameResult where
  result : String
  winnings : Rat
  bet : Rat
  playerCards : List Card
  dealerCards : List Card
  hands : Option (List PlayerHand)
  initialDecision : Option InitialDecision

/-- `BlackjackGame.getInitialAction`: reconstruct the first action from the
final worklist by shape alone (split = several hands; 3 cards on 2 dealt =
double; longer = hit; else stand). -/
def getInitialAction (playerCards : List Card) (_dealerUpCard : Card)
    (finalHands : Option (List PlayerHand)) : String :=
  match finalHands with
  | some hs =>
    if 1 < hs.length then "P"
    else if 0 < hs.length then
      let firstHand := hs.getD 0 default
      if firstHand.cards.length = 3 ∧ playerCards.length = 2 then "D"
      else if playerCards.length < firstHand.cards.length then "H"
      else "S"
    else "S"
  | none => "S"

/-- The blackjack payout factor (`3:2` → 1.5, `6:5` → 1.2, else 1). -/
def payoutFactor (blackjackPays : String) : Rat :=
  if blackjackPays = "3:2" then 3 / 2
  else if blackjackPays = "6:5" then 6 / 5 else 1

/-- The final outcome tag of `playGame` (sign of the net winnings). -/
def settleTag (w : Rat) : String :=
  if 0 < w then "win" else if w < 0 then "lose" else "push"

/-- The body of `playGame` after the initial four-card deal: naturals,
player worklist, dealer play, settlement. -/
def playGameCore (rules : Rules) (strat : Strategy)
    (playerCards dealerCards : List Card) (deck : Deck) (ctr : Option Counter)
    (betSize : Rat) (fuel : Nat) : GameResult × Deck × Option Counter :=
  let dealerUpCard := dealerCards.getD 0 default
  if isBlackjack playerCards then
    if isBlackjack dealerCards then
      ({ result := "push", winnings := 0, bet := betSize,
         playerCards := playerCards, dealerCards := dealerCards,
         hands := none, initialDecision := none }, deck, ctr)
    else
      ({ result := "blackjack",
         winnings := betSize * payoutFactor rules.blackjackPays, bet := betSize,
         playerCards := playerCards, dealerCards := dealerCards,
         hands := none, initialDecision := none }, deck, ctr)
  else if isBlackjack dealerCards then
    ({ result := "lose", winnings := -betSize, bet := betSize,
       playerCards := playerCards, dealerCards := dealerCards,
       hands := none, initialDecision := none }, deck, ctr)
  else
    let ph := playHand rules strat deck ctr playerCards dealerUpCard
      rules.doubleAfterSplit true fuel
    let pd := playDealer rules fuel dealerCards ph.deck ph.counter
    let dealerValue := (calculateHandValue pd.1).value
    let dealerBust := decide (21 < dealerValue)
    let totalWinnings : Rat := ph.hands.foldl
      (fun acc hand =>
        if hand.result = some "lose" then acc - betSize * (hand.bet : Rat)
        else
          let playerValue := (calculateHandValue hand.cards).value
          if 21 < playerValue then acc - betSize * (hand.bet : Rat)
          else if dealerBust = true then acc + betSize * (hand.bet : Rat)
          else if dealerValue < playerValue then acc + betSize * (hand.bet : Rat)
          else if playerValue < dealerValue then acc - betSize * (hand.bet : Rat)
          else acc) 0
    ({ result := settleTag totalWinnings,
       winnings := totalWinnings,
       bet := betSize * (ph.totalBet : Rat),
       playerCards := playerCards,
       dealerCards := pd.1,
       hands := some ph.hands,
       initialDecision := some
         { playerTotal := calculateHandValue playerCards,
           dealerCard := dealerUpCard,
           action := getInitialAction playerCards dealerUpCard (some ph.hands) } },
     pd.2.1, pd.2.2)

/-- `BlackjackGame.playGame`: reshuffle check, initial two-and-two deal
(player first, then dealer; the dealer's first card is the up-card), then
the game body. -/
def playGame (rules : Rules) (strat : Strategy) (deck : Deck)
    (ctr : Option Counter) (betSize : Rat) (fuel : Nat) :
    GameResult × Deck × Option Counter :=
  let s0 := if deck.shouldReshuffle then deck.shuffle ctr else (deck, ctr)
  let r1 := s0.1.dealCard s0.2
  let r2 := r1.2.1.dealCard r1.2.2
  let r3 := r2.2.1.dealCard r2.2.2
  let r4 := r3.2.1.dealCard r3.2.2
  playGameCore rules strat [r1.1, r2.1] [r3.1, r4.1] r4.2.1 r4.2.2 betSize fuel

/-- The action `trackCellStats` stores in a cell key: the result's
`initialDecision.action` when present, else `'S'` (the recompute branch of
the source never fires because the stored action string is non-empty). -/
def storedCellAction (g : GameResult) : String :=
  match g.initialDecision with
  | some d => d.action
  | none => "S"

/-! ### C9: the recorded first action -/

/-- Rules with doubling after split disabled (`playGame` passes
`doubleAfterSplit` as the engine's `canDouble`, so doubling is impossible
in this run). -/
def rulesNoDouble : Rules := ⟨"17s", false, true, false, "3:2"⟩

/-- A strategy that hits hard 12 and stands otherwise. -/
def stratHit12 : Strategy :=
  { Strategy.new with hard := fun t d => if t = 12 then some "H" else initHard t d }

/-- A deck whose next deals (from the end) are 10, 2, 10, 9, 5. -/
def deckHit12 : Deck :=
  { numDecks := 6,
    cards := [mkCard .r5, mkCard .r9, mkCard .r10, mkCard .r2, mkCard .r10],
    usedCards := [], penetration := 0, penetrationThreshold := 75, rng := [] }

/-- The concrete game for the C9 bug: player 10,2 vs dealer 10, hits a 5
(reaching 17 on three cards), stands, and doubling was disabled. -/
def c9Run : GameResult := (playGame rulesNoDouble stratHit12 deckHit12 none 100 10).1

/-- C9: `getInitialAction` reports `'D'` for a hand whose first action was a
hit — the player held 10,2, doubling was impossible (`doubleAfterSplit`
passed as `canDouble` is false, and the bet multiplier stayed 1), the
strategy's decision at the initial state was `'H'`, yet the recorded initial
decision (the action `trackCellStats` stores) is `'D'` purely because the
hand ended with three cards. -/
theorem getInitialAction_misreports_hit :
    c9Run.initialDecision.map InitialDecision.action = some "D" ∧
    storedCellAction c9Run = "D" ∧
    c9Run.hands = some [⟨[mkCard .r10, mkCard .r2, mkCard .r5], 1, none⟩] ∧
    rulesNoDouble.doubleAfterSplit = false ∧
    stratHit12.getAction "12" "10" false false 0 = "H" :=
  ⟨rfl, rfl, rfl, rfl, rfl⟩

/-! ### C10: simulation outcome counters -/

/-- The aggregate counters of `runSimulations`.  The sample-results list,
count statistics and per-cell statistics do not feed back into these
counters and are omitted. -/
structure SimResults where
  totalGames : Nat
  wins : Nat
  losses : Nat
  pushes : Nat
  blackjacks : Nat
  totalWinnings : Rat
  totalBet : Rat

def emptySimResults : SimResults := ⟨0, 0, 0, 0, 0, 0, 0⟩

/-- One iteration of the `runSimulations` loop body: bump the totals, then
the outcome counter selected by the result tag (a `'blackjack'` outcome
increments both `blackjacks` and `wins`). -/
def simStep (res : SimResults) (g : GameResult) : SimResults :=
  let res := { res with
    totalGames := res.totalGames + 1,
    totalWinnings := res.totalWinnings + g.winnings,
    totalBet := res.totalBet + g.bet }
  if g.result = "win" then { res with wins := res.wins + 1 }
  else if g.result = "lose" then { res with losses := res.losses + 1 }
  else if g.result = "push" then { res with pushes := res.pushes + 1 }
  else if g.result = "blackjack" then
    { res with blackjacks := res.blackjacks + 1, wins := res.wins + 1 }
  else res

/-- The chunked simulation loop (chunking only affects scheduling, not the
aggregation, and is flattened here). -/
def runSimsAux (rules : Rules) (strat : Strategy) (betSize : Rat) (fuel : Nat) :
    Nat → SimResults → Deck → Option Counter → SimResults × Deck × Option Counter
  | 0, res, d, c => (res, d, c)
  | n + 1, res, d, c =>
    let g := playGame rules strat d c betSize fuel
    runSimsAux rules strat betSize fuel n (simStep res g.1) g.2.1 g.2.2

/-- `Simulator.runSimulations` (final counters). -/
def runSimulations (rules : Rules) (strat : Strategy) (n : Nat) (betSize : Rat)
    (deck : Deck) (ctr : Option Counter) (fuel : Nat) : SimResults :=
  (runSimsAux rules strat betSize fuel n emptySimResults deck ctr).1

lemma settleTag_mem (w : Rat) :
    settleTag w = "win" ∨ settleTag w = "lose" ∨ settleTag w = "push" := by
  unfold settleTag
  split_ifs <;> simp

/-- Every `playGameCore` outcome tag is one of the four known strings. -/
lemma playGameCore_result_mem (rules : Rules) (strat : Strategy)
    (playerCards dealerCards : List Card) (deck : Deck) (ctr : Option Counter)
    (betSize : Rat) (fuel : Nat) :
    (playGameCore rules strat playerCards dealerCards deck ctr betSize
        fuel).1.result = "win" ∨
    (playGameCore rules strat playerCards dealerCards deck ctr betSize
        fuel).1.result = "lose" ∨
    (playGameCore rules strat playerCards dealerCards deck ctr betSize
        fuel).1.result = "push" ∨
    (playGameCore rules strat playerCards dealerCards deck ctr betSize
        fuel).1.result = "blackjack" := by
  unfold playGameCore
  simp only
  split_ifs <;>
    first
    | exact Or.inr (Or.inr (Or.inl rfl))
    | exact Or.inr (Or.inr (Or.inr rfl))
    | exact Or.inr (Or.inl rfl)
    | exact Or.imp id (Or.imp id Or.inl) (settleTag_mem _)

/-- Every `playGame` outcome tag is one of the four known strings. -/
lemma playGame_result_mem (rules : Rules) (strat : Strategy) (deck : Deck)
    (ctr : Option Counter) (betSize : Rat) (fuel : Nat) :
    (playGame rules strat deck ctr betSize fuel).1.result = "win" ∨
    (playGame rules strat deck ctr betSize fuel).1.result = "lose" ∨
    (playGame rules strat deck ctr betSize fuel).1.result = "push" ∨
    (playGame rules strat deck ctr betSize fuel).1.result = "blackjack" := by
  rw [playGame]
  exact playGameCore_result_mem rules strat _ _ _ _ betSize fuel

lemma simStep_inv (res : SimResults) (g : GameResult)
    (hmem : g.result = "win" ∨ g.result = "lose" ∨ g.result = "push" ∨
      g.result = "blackjack")
    (h1 : res.wins + res.losses + res.pushes = res.totalGames)
    (h2 : res.blackjacks ≤ res.wins) :
    (simStep res g).wins + (simStep res g).losses + (simStep res g).pushes =
      (simStep res g).totalGames ∧
    (simStep res g).blackjacks ≤ (simStep res g).wins := by
  rcases hmem with h | h | h | h <;> simp [simStep, h] <;> omega

lemma runSimsAux_inv (rules : Rules) (strat : Strategy) (betSize : Rat)
    (fuel : Nat) :
    ∀ (n : Nat) (res : SimResults) (deck : Deck) (ctr : Option Counter),
      res.wins + res.losses + res.pushes = res.totalGames →
      res.blackjacks ≤ res.wins →
      ((runSimsAux rules strat betSize fuel n res deck ctr).1.wins +
        (runSimsAux rules strat betSize fuel n res deck ctr).1.losses +
        (runSimsAux rules strat betSize fuel n res deck ctr).1.pushes =
        (runSimsAux rules strat betSize fuel n res deck ctr).1.totalGames) ∧
      (runSimsAux rules strat betSize fuel n res deck ctr).1.blackjacks ≤
        (runSimsAux rules strat betSize fuel n res deck ctr).1.wins := by
  intro n
  induction n with
  | zero => intro res deck ctr h1 h2; exact ⟨h1, h2⟩
  | succ n ih =>
    intro res deck ctr h1 h2
    have hstep := simStep_inv res (playGame rules strat deck ctr betSize fuel).1
      (playGame_result_mem rules strat deck ctr betSize fuel) h1 h2
    simpa [runSimsAux] using ih _ _ _ hstep.1 hstep.2

/-- C10: a `'blackjack'` outcome increments both the `blackjacks` and the
`wins` counters, and over any completed run `wins + losses + pushes =
totalGames` (wins counting the blackjack hands, so `blackjacks ≤ wins`). -/
theorem runSimulations_counts (rules : Rules) (strat : Strategy)
    (betSize : Rat) (fuel : Nat) :
    (∀ (res : SimResults) (g : GameResult), g.result = "blackjack" →
      (simStep res g).blackjacks = res.blackjacks + 1 ∧
      (simStep res g).wins = res.wins + 1) ∧
    (∀ (n : Nat) (deck : Deck) (ctr : Option Counter),
      (runSimulations rules strat n betSize deck ctr fuel).wins +
        (runSimulations rules strat n betSize deck ctr fuel).losses +
        (runSimulations rules strat n betSize deck ctr fuel).pushes =
        (runSimulations rules strat n betSize deck ctr fuel).totalGames ∧
      (runSimulations rules strat n betSize deck ctr fuel).blackjacks ≤
        (runSimulations rules strat n betSize deck ctr fuel).wins) := by
  constructor
  · intro res g hg
    constructor <;> simp [simStep, hg]
  · intro n deck ctr
    exact runSimsAux_inv rules strat betSize fuel n emptySimResults deck ctr
      rfl (le_refl 0)

/-- Witness for `runSimulations_counts`: a literal blackjack outcome bumps
both counters from zero, and a two-game run keeps the counters consistent. -/
theorem runSimulations_counts_witness :
    ((simStep emptySimResults
        ⟨"blackjack", 150, 100, [], [], none, none⟩).blackjacks = 0 + 1 ∧
      (simStep emptySimResults
        ⟨"blackjack", 150, 100, [], [], none, none⟩).wins = 0 + 1) ∧
    ((runSimulations rulesNoDouble stratHit12 2 100 deckHit12 none 10).wins +
      (runSimulations rulesNoDouble stratHit12 2 100 deckHit12 none 10).losses +
      (runSimulations rulesNoDouble stratHit12 2 100 deckHit12 none 10).pushes =
      (runSimulations rulesNoDouble stratHit12 2 100 deckHit12 none 10).totalGames) :=
  ⟨(runSimulations_counts rulesNoDouble stratHit12 100 10).1 emptySimResults
      ⟨"blackjack", 150, 100, [], [], none, none⟩ rfl,
    ((runSimulations_counts rulesNoDouble stratHit12 100 10).2 2 deckHit12 none).1⟩

/-! ### C7: the situation-analyzer input guard -/

/-- JS `trim()`, computed on the character list. -/
def jsTrim (s : String) : String :=
  String.mk
    (((s.toList.dropWhile Char.isWhitespace).reverse.dropWhile
      Char.isWhitespace).reverse)

/-- JS `toUpperCase()`, computed on the character list. -/
def jsToUpper (s : String) : String := String.mk (s.toList.map Char.toUpper)

/-- The `parseCard` closure of `analyzeSituation`: `'A'`/`'ACE'`, the
ten-valued ranks, or a numeric rank 2..9; anything else is `none` (JS
`null`). -/
def parseCard (cardStr : String) : Option Card :=
  let t := jsToUpper (jsTrim cardStr)
  if t = "A" ∨ t = "ACE" then some ⟨Rank.A, "♠", 11⟩
  else if t = "J" then some ⟨Rank.J, "♠", 10⟩
  else if t = "Q" then some ⟨Rank.Q, "♠", 10⟩
  else if t = "K" then some ⟨Rank.K, "♠", 10⟩
  else if t = "10" then some ⟨Rank.r10, "♠", 10⟩
  else
    match jsParseInt t with
    | some n =>
      if n = 2 then some ⟨Rank.r2, "♠", 2⟩
      else if n = 3 then some ⟨Rank.r3, "♠", 3⟩
      else if n = 4 then some ⟨Rank.r4, "♠", 4⟩
      else if n = 5 then some ⟨Rank.r5, "♠", 5⟩
      else if n = 6 then some ⟨Rank.r6, "♠", 6⟩
      else if n = 7 then some ⟨Rank.r7, "♠", 7⟩
      else if n = 8 then some ⟨Rank.r8, "♠", 8⟩
      else if n = 9 then some ⟨Rank.r9, "♠", 9⟩
      else none
    | none => none

/-- The error guard of `analyzeSituation`: the structured
`{error: 'Invalid card input'}` object is returned exactly when this is
true (no other return site produces it), i.e. when the null-filtered player
card list is empty or the dealer card fails to parse. -/
def analyzeSituationInvalid (playerCards dealerCard : String) : Bool :=
  ((splitOnComma playerCards).filterMap parseCard).isEmpty ||
    (parseCard dealerCard).isNone

/-- C7 (amended): `analyzeSituation` reports the structured error iff every
comma-separated player entry is unparseable or the dealer card is
unparseable; an unparseable player entry alongside a parseable one is
silently dropped instead. -/
theorem analyzeSituation_error_iff (p d : String) :
    analyzeSituationInvalid p d = true ↔
      ((∀ part ∈ splitOnComma p, parseCard part = none) ∨
        parseCard d = none) := by
  simp [analyzeSituationInvalid, List.isEmpty_iff, List.filterMap_eq_nil_iff,
    Option.isNone_iff_eq_none]

/-- C7 counterexample: the player input `'10,X'` contains the unparseable
card `'X'`, yet no structured error is produced (the dealer `'5'` parses and
one player card survives the filter), refuting "every input containing an
unparseable card yields the error object". -/
theorem analyzeSituation_error_counterexample :
    parseCard "X" = none ∧ "X" ∈ splitOnComma "10,X" ∧
      analyzeSituationInvalid "10,X" "5" = false :=
  ⟨rfl, by decide, rfl⟩

/-! ### C6: the action set synthesized by `testRowActions` -/

/-- The representative-hand synthesis at the top of `testRowActions`:
the concrete 2-card string, double eligibility and split eligibility for a
row label.  Numeric parses use the label's leading digits; the JS `NaN`
propagation on entirely unparseable labels is approximated by 0 (no claim
touches such labels). -/
def rowHandSetup (playerTotal : String) : String × Bool × Bool :=
  if strStartsWith playerTotal 'S' then
    let softValue := (jsParseInt (playerTotal.drop 1)).getD 0
    ("A," ++ toString (softValue - 11), true, false)
  else if strContainsComma playerTotal then
    (playerTotal, true, true)
  else
    let hardValue := (jsParseInt playerTotal).getD 0
    if 10 ≤ hardValue ∧ hardValue ≤ 20 then
      let card1 := min 10 (hardValue - 5)
      let card2 := hardValue - card1
      (toString card1 ++ "," ++ toString card2, true, false)
    else
      let cardValue := Int.fdiv hardValue 2
      (toString cardValue ++ "," ++ toString (hardValue - cardValue), true,
        decide (cardValue = hardValue - cardValue))

/-- The action list `testRowActions` builds for a row label: Hit and Stand
always; Double only for soft labels, non-ace pairs, or hard 9–11; Split only
when the synthesized hand is a pair. -/
def rowActions (playerTotal : String) : List String :=
  let setup := rowHandSetup playerTotal
  let base := ["H", "S"]
  let withD :=
    if setup.2.1 then
      if strStartsWith playerTotal 'S' then base ++ ["D"]
      else if strContainsComma playerTotal then
        let pairValue : Int :=
          if playerTotal = "A,A" then 11
          else (jsParseInt ((splitOnComma playerTotal).getD 0 "")).getD 0
        if pairValue ≠ 11 then base ++ ["D"] else base
      else
        let hardValue := (jsParseInt playerTotal).getD 0
        if 9 ≤ hardValue ∧ hardValue ≤ 11 then base ++ ["D"] else base
    else base
  if setup.2.2 then withD ++ ["P"] else withD

/-- The key structure of the resolved `summary`: one entry per requested
dealer card, carrying exactly the synthesized action list (the finalize
loop iterates `dealers × actions`). -/
def testRowActionsSummaryKeys (playerTotal : String) (dealers : List String) :
    List (String × List String) :=
  dealers.map (fun dealer => (dealer, rowActions playerTotal))

/-- C6 counterexample: for the hard-16 row the synthesized action set has no
`'D'` (hard totals may only double on 9–11), so `summary['10']` does not
carry the keys `{H, S, D}` the claim states. -/
theorem testRowActions_16_keys_counterexample :
    rowActions "16" = ["H", "S"] ∧ "D" ∉ rowActions "16" ∧
      testRowActionsSummaryKeys "16" ["10"] ≠ [("10", ["H", "S", "D"])] :=
  ⟨rfl, by decide, by decide⟩

/-- C6 (amended): `testRowActions('16', ['10'], ...)` synthesizes the
representative hand 10,6 (not a pair, doubling structurally allowed but not
offered for hard 16) and resolves with `summary['10']` holding exactly the
keys `{H, S}`. -/
theorem testRowActions_16_keys :
    testRowActionsSummaryKeys "16" ["10"] = [("10", ["H", "S"])] ∧
      rowHandSetup "16" = ("10,6", true, false) :=
  ⟨rfl, rfl⟩

end Blackjack
